import Mathlib

/-!
Shallow embedding of `main/taskprocessor.c` (Asterisk taskprocessor core).

The embedding models one taskprocessor as a sequential state machine:
the queue is a list of task envelopes, the `tps_queue_size` counter and the
statistics mirror the C struct fields, and calls the processor makes into its
listener (`task_pushed`, `emptied`) as well as the execution of a task
callback are recorded as an explicit event trace.  Task callbacks are
modelled by the status code they return plus an identity label used to state
ordering properties; their side effects on unrelated state are outside the
model.  Locking is not modelled: the embedding is the sequential semantics of
the locked critical sections in program order.
-/

/-- Embeds `struct tps_task` (taskprocessor.c:49-56): one queued task.
`id` stands for the `(execute, datap)` pair as an identity, `ret` is the
status code the callback returns when run (`t->execute(t->datap)`). -/
structure tps_task where
  id : Nat
  ret : Int
deriving Repr, DecidableEq

/-- Embeds `struct tps_taskprocessor_stats` (taskprocessor.c:59-64).
`max_qsize` is the C field of the same name; `tasks_processed_count` embeds
the C field `_tasks_processed_count`.  The C fields are `unsigned long`; on
every state reachable by the modelled operations the values stay small and
nonnegative, so `Int` without wraparound is faithful. -/
structure tps_taskprocessor_stats where
  max_qsize : Int
  tasks_processed_count : Int
deriving Repr, DecidableEq

/-- Embeds `struct ast_taskprocessor` (taskprocessor.c:67-81), restricted to
the fields the queue operations read or write: the FIFO queue, the
`tps_queue_size` counter (C type `long`), the stats block (the C pointer is
always non-null after creation, so it is embedded by value), and the
`shutting_down` bit.  The name, listener pointer and container linkage are
modelled separately where a claim needs them. -/
structure ast_taskprocessor where
  tps_queue : List tps_task
  tps_queue_size : Int
  stats : tps_taskprocessor_stats
  shutting_down : Bool
deriving Repr, DecidableEq

/-- Calls the processor makes out into its listener, plus the execution of a
task callback, recorded in program order. -/
inductive TpsEvent where
  /-- `tps->listener->callbacks->task_pushed(listener, was_empty)` -/
  | taskPushed (wasEmpty : Bool)
  /-- `t->execute(t->datap)` ran for the task labelled `id` -/
  | ran (id : Nat)
  /-- `tps->listener->callbacks->emptied(listener)` -/
  | emptied
deriving Repr, DecidableEq

/-- A freshly created taskprocessor, as built by
`ast_taskprocessor_create_with_listener` (taskprocessor.c:537-579):
`ao2_alloc`/`ast_calloc` zero the queue, the counter, the stats and the
`shutting_down` bit. -/
def newTps : ast_taskprocessor :=
  { tps_queue := []
    tps_queue_size := 0
    stats := { max_qsize := 0, tasks_processed_count := 0 }
    shutting_down := false }

/-- Embeds `tps_task_alloc` (taskprocessor.c:251-259).  `ast_calloc` may
fail; the nondeterministic outcome is an explicit `allocOk` parameter. -/
def tps_task_alloc (allocOk : Bool) (t : tps_task) : Option tps_task :=
  if allocOk then some t else none

/-- The successful-push state change of `ast_taskprocessor_push`
(taskprocessor.c:620-623): `AST_LIST_INSERT_TAIL(&tps->tps_queue, t, list)`
then `tps->tps_queue_size++`, performed under the processor lock. -/
def pushTask (tps : ast_taskprocessor) (t : tps_task) : ast_taskprocessor :=
  { tps with
      tps_queue := tps.tps_queue ++ [t]
      tps_queue_size := tps.tps_queue_size + 1 }

/-- Embeds `ast_taskprocessor_push` (taskprocessor.c:607-626).  `none`
arguments stand for NULL pointers.  Returns the C return value, the updated
processor (still `none` exactly when the handle was NULL) and the listener
calls made.  `previous_size = tps->tps_queue_size++` is the counter before
the increment, and the listener gets `task_pushed(previous_size ? 0 : 1)`. -/
def ast_taskprocessor_push (tps? : Option ast_taskprocessor)
    (task_exe? : Option tps_task) (allocOk : Bool) :
    Int × Option ast_taskprocessor × List TpsEvent :=
  match tps?, task_exe? with
  | none, _ => (-1, none, [])
  | some tps, none => (-1, some tps, [])
  | some tps, some task_exe =>
    match tps_task_alloc allocOk task_exe with
    | none => (-1, some tps, [])
    | some t =>
      let previous_size := tps.tps_queue_size
      (0, some (pushTask tps t), [TpsEvent.taskPushed (previous_size == 0)])

/-- Embeds `tps_taskprocessor_pop` (taskprocessor.c:436-449): under the lock,
refuse if `shutting_down`, otherwise `AST_LIST_REMOVE_HEAD` and decrement
`tps_queue_size` only when a task actually came off. -/
def tps_taskprocessor_pop (tps : ast_taskprocessor) :
    Option tps_task × ast_taskprocessor :=
  if tps.shutting_down then (none, tps)
  else
    match tps.tps_queue with
    | [] => (none, tps)
    | t :: rest =>
      (some t, { tps with tps_queue := rest, tps_queue_size := tps.tps_queue_size - 1 })

/-- Embeds `tps_taskprocessor_depth` (taskprocessor.c:451-454). -/
def tps_taskprocessor_depth (tps? : Option ast_taskprocessor) : Int :=
  match tps? with
  | some tps => tps.tps_queue_size
  | none => -1

/-- Embeds `ast_taskprocessor_execute` (taskprocessor.c:628-656).  Pop the
head; if nothing came off return 0.  Otherwise run the callback (recorded as
a `ran` event; its status code is discarded, exactly as `t->execute(t->datap);`
discards it), free the task, and under the lock re-read the depth, bump
`_tasks_processed_count` and raise `max_qsize` to the depth just observed if
larger.  If that depth is 0, call the listener's `emptied` and return 0;
otherwise return 1. -/
def ast_taskprocessor_execute (tps : ast_taskprocessor) :
    Int × ast_taskprocessor × List TpsEvent :=
  match tps_taskprocessor_pop tps with
  | (none, tps1) => (0, tps1, [])
  | (some t, tps1) =>
    let size := tps_taskprocessor_depth (some tps1)
    let stats1 : tps_taskprocessor_stats :=
      { tasks_processed_count := tps1.stats.tasks_processed_count + 1
        max_qsize := if size > tps1.stats.max_qsize then size else tps1.stats.max_qsize }
    let tps2 := { tps1 with stats := stats1 }
    if size == 0 then (0, tps2, [TpsEvent.ran t.id, TpsEvent.emptied])
    else (1, tps2, [TpsEvent.ran t.id])

/-- One externally invokable queue operation on a processor. -/
inductive TpsOp where
  | push (t : tps_task)
  | execute
deriving Repr, DecidableEq

/-- Apply one operation to the processor state.  A push is a successful
`ast_taskprocessor_push` (non-NULL arguments, allocation succeeds); an
execute is `ast_taskprocessor_execute`. -/
def applyOp (tps : ast_taskprocessor) : TpsOp → ast_taskprocessor
  | TpsOp.push t =>
    match ast_taskprocessor_push (some tps) (some t) true with
    | (_, some tps1, _) => tps1
    | (_, none, _) => tps
  | TpsOp.execute => (ast_taskprocessor_execute tps).2.1

/-- Apply a sequence of operations left to right. -/
def applyOps (tps : ast_taskprocessor) : List TpsOp → ast_taskprocessor
  | [] => tps
  | op :: ops => applyOps (applyOp tps op) ops

/-- Number of pushes in an operation sequence. -/
def numPushes : List TpsOp → Int
  | [] => 0
  | TpsOp.push _ :: ops => 1 + numPushes ops
  | TpsOp.execute :: ops => numPushes ops

/-- Push a whole list of tasks, in order, via the successful-push state
change. -/
def pushAll (tps : ast_taskprocessor) : List tps_task → ast_taskprocessor
  | [] => tps
  | t :: ts => pushAll (pushTask tps t) ts

/-- Call `ast_taskprocessor_execute` `fuel` times, concatenating the event
traces. -/
def drainExec (tps : ast_taskprocessor) : Nat → List TpsEvent × ast_taskprocessor
  | 0 => ([], tps)
  | Nat.succ n =>
    let r := ast_taskprocessor_execute tps
    let rest := drainExec r.2.1 n
    (r.2.2 ++ rest.1, rest.2)

/-- The ids of the tasks whose callbacks ran, in trace order. -/
def ranIds : List TpsEvent → List Nat
  | [] => []
  | TpsEvent.ran i :: es => i :: ranIds es
  | _ :: es => ranIds es

example : ast_taskprocessor_push (some newTps) (some ⟨0, 0⟩) true
    = (0, some (pushTask newTps ⟨0, 0⟩), [TpsEvent.taskPushed true]) := by decide

example : (ast_taskprocessor_execute (pushTask newTps ⟨0, 0⟩)).1 = 0 := by decide

example :
    ranIds (drainExec (pushAll newTps [⟨0, 0⟩, ⟨1, 0⟩, ⟨2, 0⟩]) 3).1 = [0, 1, 2] := by
  decide

theorem ranIds_append (a b : List TpsEvent) :
    ranIds (a ++ b) = ranIds a ++ ranIds b := by
  induction a with
  | nil => rfl
  | cons e a ih => cases e <;> simp [ranIds, ih]

theorem pushAll_spec (ts : List tps_task) (tps : ast_taskprocessor) :
    pushAll tps ts =
      { tps with
          tps_queue := tps.tps_queue ++ ts
          tps_queue_size := tps.tps_queue_size + ts.length } := by
  induction ts generalizing tps with
  | nil => simp [pushAll]
  | cons t ts ih =>
    rw [pushAll, ih]
    simp [pushTask]
    ring

theorem execute_cons (tps : ast_taskprocessor) (t : tps_task) (rest : List tps_task)
    (hs : tps.shutting_down = false) (hq : tps.tps_queue = t :: rest) :
    ast_taskprocessor_execute tps =
      (if tps.tps_queue_size - 1 == 0 then 0 else 1,
       { tps with
           tps_queue := rest
           tps_queue_size := tps.tps_queue_size - 1
           stats :=
             { tasks_processed_count := tps.stats.tasks_processed_count + 1
               max_qsize :=
                 if tps.tps_queue_size - 1 > tps.stats.max_qsize
                 then tps.tps_queue_size - 1 else tps.stats.max_qsize } },
       if tps.tps_queue_size - 1 == 0 then [TpsEvent.ran t.id, TpsEvent.emptied]
       else [TpsEvent.ran t.id]) := by
  simp [ast_taskprocessor_execute, tps_taskprocessor_pop, hs, hq,
    tps_taskprocessor_depth]
  split <;> simp

theorem execute_empty (tps : ast_taskprocessor)
    (h : tps_taskprocessor_pop tps = (none, tps)) :
    ast_taskprocessor_execute tps = (0, tps, []) := by
  simp [ast_taskprocessor_execute, h]

theorem pop_none_state (tps : ast_taskprocessor)
    (h : (tps_taskprocessor_pop tps).1 = none) :
    tps_taskprocessor_pop tps = (none, tps) := by
  unfold tps_taskprocessor_pop at h ⊢
  by_cases hs : tps.shutting_down
  · simp [hs]
  · simp [hs] at h ⊢
    cases hq : tps.tps_queue with
    | nil => simp
    | cons t rest => simp [hq] at h

theorem drain_fifo (q : List tps_task) (tps : ast_taskprocessor)
    (hs : tps.shutting_down = false) (hq : tps.tps_queue = q) :
    ranIds (drainExec tps q.length).1 = q.map tps_task.id
    ∧ (drainExec tps q.length).2.tps_queue = []
    ∧ (drainExec tps q.length).2.shutting_down = false := by
  induction q generalizing tps with
  | nil => simp [drainExec, hq, hs, ranIds]
  | cons t rest ih =>
    have hstep := execute_cons tps t rest hs hq
    have hrec := ih
      { tps with
          tps_queue := rest
          tps_queue_size := tps.tps_queue_size - 1
          stats :=
            { tasks_processed_count := tps.stats.tasks_processed_count + 1
              max_qsize :=
                if tps.tps_queue_size - 1 > tps.stats.max_qsize
                then tps.tps_queue_size - 1 else tps.stats.max_qsize } }
      hs rfl
    simp only [List.length_cons, drainExec, hstep, ranIds_append]
    refine ⟨?_, hrec.2.1, hrec.2.2⟩
    rw [hrec.1]
    split <;> simp [ranIds]

theorem applyOp_push (tps : ast_taskprocessor) (t : tps_task) :
    applyOp tps (TpsOp.push t) = pushTask tps t := rfl

theorem execute_counts (tps : ast_taskprocessor) :
    (ast_taskprocessor_execute tps).2.1.tps_queue_size
        + (ast_taskprocessor_execute tps).2.1.stats.tasks_processed_count
      = tps.tps_queue_size + tps.stats.tasks_processed_count
    ∧ (tps.tps_queue_size = (tps.tps_queue.length : Int) →
        (ast_taskprocessor_execute tps).2.1.tps_queue_size
          = ((ast_taskprocessor_execute tps).2.1.tps_queue.length : Int))
    ∧ (ast_taskprocessor_execute tps).2.1.shutting_down = tps.shutting_down := by
  by_cases hs : tps.shutting_down
  · have hpop : tps_taskprocessor_pop tps = (none, tps) := by
      simp [tps_taskprocessor_pop, hs]
    simp [execute_empty tps hpop]
  · cases hq : tps.tps_queue with
    | nil =>
      have hpop : tps_taskprocessor_pop tps = (none, tps) := by
        simp [tps_taskprocessor_pop, hs, hq]
      simp [execute_empty tps hpop, hq]
    | cons t rest =>
      have hs' : tps.shutting_down = false := by simpa using hs
      rw [execute_cons tps t rest hs' hq]
      refine ⟨by simp, ?_, by simp⟩
      intro h
      simp at h ⊢
      omega

theorem applyOps_inv (ops : List TpsOp) (tps : ast_taskprocessor) :
    ((applyOps tps ops).tps_queue_size + (applyOps tps ops).stats.tasks_processed_count
        = tps.tps_queue_size + tps.stats.tasks_processed_count + numPushes ops)
    ∧ (tps.tps_queue_size = (tps.tps_queue.length : Int) →
        (applyOps tps ops).tps_queue_size = ((applyOps tps ops).tps_queue.length : Int)) := by
  induction ops generalizing tps with
  | nil => simp [applyOps, numPushes]
  | cons op ops ih =>
    cases op with
    | push t =>
      have h := ih (pushTask tps t)
      simp only [applyOps, applyOp_push, numPushes]
      constructor
      · rw [h.1]
        simp [pushTask]
        ring
      · intro hinv
        refine h.2 ?_
        simp [pushTask]
        omega
    | execute =>
      have hexec := execute_counts tps
      have h := ih (ast_taskprocessor_execute tps).2.1
      simp only [applyOps, applyOp]
      constructor
      · rw [h.1, hexec.1]
        simp [numPushes]
      · intro hinv
        exact h.2 (hexec.2.1 hinv)

/-- C1: for every sequence of N pushes onto a fresh processor followed by
repeated execute-one calls until the queue is empty, the tasks' callbacks
run in exactly the order the tasks were pushed (push appends to the tail,
execute-one pops the head). -/
theorem push_order_is_execution_order (ts : List tps_task) :
    ranIds (drainExec (pushAll newTps ts) ts.length).1 = ts.map tps_task.id
    ∧ (drainExec (pushAll newTps ts) ts.length).2.tps_queue = [] := by
  have hstate := pushAll_spec ts newTps
  have hs : (pushAll newTps ts).shutting_down = false := by
    simp only [hstate]
    rfl
  have hq : (pushAll newTps ts).tps_queue = ts := by
    simp only [hstate]
    rfl
  have h := drain_fifo ts (pushAll newTps ts) hs hq
  exact ⟨h.1, h.2.1⟩

/-- C3: on every state reachable from a fresh processor by any interleaving
of (successful) pushes and execute-one calls, `tps_queue_size` equals the
number of tasks in the queue, and the depth equals the number of pushes
minus the number of completed executions (`_tasks_processed_count`), which
never exceeds the number of pushes. -/
theorem queue_size_invariant (ops : List TpsOp) :
    ((applyOps newTps ops).tps_queue_size
        = ((applyOps newTps ops).tps_queue.length : Int))
    ∧ (applyOps newTps ops).tps_queue_size
        = numPushes ops - (applyOps newTps ops).stats.tasks_processed_count
    ∧ (applyOps newTps ops).stats.tasks_processed_count ≤ numPushes ops := by
  have h := applyOps_inv ops newTps
  have h1 := h.2 (by simp [newTps])
  have h2 : (applyOps newTps ops).tps_queue_size
      + (applyOps newTps ops).stats.tasks_processed_count = numPushes ops := by
    simpa [newTps] using h.1
  have h0 : (0 : Int) ≤ (applyOps newTps ops).tps_queue_size := by
    rw [h1]
    exact Int.natCast_nonneg _
  refine ⟨h1, by omega, by omega⟩

/-- C4: every successful push emits exactly one `task_pushed` listener call,
whose `wasEmpty` flag is true if and only if `tps_queue_size` was zero
immediately before the push. -/
theorem push_signals_empty_edge (tps : ast_taskprocessor) (t : tps_task) :
    ast_taskprocessor_push (some tps) (some t) true
      = (0, some (pushTask tps t), [TpsEvent.taskPushed (tps.tps_queue_size == 0)])
    ∧ ((tps.tps_queue_size == 0) = true ↔ tps.tps_queue_size = 0) := by
  exact ⟨rfl, beq_iff_eq⟩

/-- C2 refuted at a concrete input: on a fresh processor holding exactly one
task, execute-one pops the task and runs its callback (the `ran 0` event is
in the trace) yet returns 0, not the claimed true, because the execution
emptied the queue. -/
theorem execute_last_task_returns_zero :
    (ast_taskprocessor_execute (pushTask newTps ⟨0, 0⟩)).1 = 0
    ∧ TpsEvent.ran 0 ∈ (ast_taskprocessor_execute (pushTask newTps ⟨0, 0⟩)).2.2
    ∧ (ast_taskprocessor_execute (pushTask newTps ⟨0, 0⟩)).2.1.tps_queue = [] := by
  decide

/-- C2 (amended): execute-one returns 1 (true) exactly when a task was
popped and the queue counter is still nonzero after the pop; it returns 0
both when nothing was popped (queue empty or shutting down) and when the
popped task was the last one, in which case the listener's `emptied` runs.
A task callback runs exactly when a task was popped. -/
theorem execute_return_value (tps : ast_taskprocessor) :
    ((ast_taskprocessor_execute tps).1 = 1 ↔
      ∃ t tps1, tps_taskprocessor_pop tps = (some t, tps1)
        ∧ tps1.tps_queue_size ≠ 0)
    ∧ ((∃ i, TpsEvent.ran i ∈ (ast_taskprocessor_execute tps).2.2) ↔
        (tps_taskprocessor_pop tps).1 ≠ none) := by
  by_cases hs : tps.shutting_down
  · have hpop : tps_taskprocessor_pop tps = (none, tps) := by
      simp [tps_taskprocessor_pop, hs]
    simp [execute_empty tps hpop, hpop, ranIds]
  · cases hq : tps.tps_queue with
    | nil =>
      have hpop : tps_taskprocessor_pop tps = (none, tps) := by
        simp [tps_taskprocessor_pop, hs, hq]
      simp [execute_empty tps hpop, hpop, ranIds]
    | cons t rest =>
      have hs' : tps.shutting_down = false := by simpa using hs
      have hpop : tps_taskprocessor_pop tps =
          (some t,
           { tps with tps_queue := rest, tps_queue_size := tps.tps_queue_size - 1 }) := by
        simp [tps_taskprocessor_pop, hs', hq]
      rw [execute_cons tps t rest hs' hq]
      constructor
      · simp only [hpop]
        constructor
        · intro h1
          refine ⟨t, _, rfl, ?_⟩
          by_contra hz
          simp at hz
          simp [hz] at h1
        · rintro ⟨t', tps1', heq, hnz⟩
          obtain ⟨rfl, rfl⟩ : t' = t ∧ tps1' =
              { tps with tps_queue := rest, tps_queue_size := tps.tps_queue_size - 1 } := by
            constructor <;> simp [Prod.ext_iff] at heq <;> simp [heq.1, heq.2]
          simp at hnz
          simp [hnz]
      · simp only [hpop]
        constructor
        · intro
          simp
        · intro
          refine ⟨t.id, ?_⟩
          split <;> simp

theorem execute_max_mono (tps : ast_taskprocessor) :
    tps.stats.max_qsize ≤ (ast_taskprocessor_execute tps).2.1.stats.max_qsize := by
  by_cases hs : tps.shutting_down
  · have hpop : tps_taskprocessor_pop tps = (none, tps) := by
      simp [tps_taskprocessor_pop, hs]
    simp [execute_empty tps hpop]
  · cases hq : tps.tps_queue with
    | nil =>
      have hpop : tps_taskprocessor_pop tps = (none, tps) := by
        simp [tps_taskprocessor_pop, hs, hq]
      simp [execute_empty tps hpop]
    | cons t rest =>
      have hs' : tps.shutting_down = false := by simpa using hs
      rw [execute_cons tps t rest hs' hq]
      simp
      split <;> omega

theorem drain_max_mono (n : Nat) (tps : ast_taskprocessor) :
    tps.stats.max_qsize ≤ (drainExec tps n).2.stats.max_qsize := by
  induction n generalizing tps with
  | zero => simp [drainExec]
  | succ n ih =>
    simp only [drainExec]
    exact le_trans (execute_max_mono tps) (ih _)

/-- C5 refuted at a concrete input: push K = 1 task onto a fresh processor,
then drain it completely (the task completes: the queue is empty and
`_tasks_processed_count` is 1), yet `max_qsize` is 0, not ≥ 1: the depth is
sampled only after the executing task has already been popped. -/
theorem burst_highwater_k1_below_k :
    (drainExec (pushAll newTps [⟨0, 0⟩]) 1).2.tps_queue = []
    ∧ (drainExec (pushAll newTps [⟨0, 0⟩]) 1).2.stats.tasks_processed_count = 1
    ∧ (drainExec (pushAll newTps [⟨0, 0⟩]) 1).2.stats.max_qsize = 0
    ∧ ¬ (1 ≤ (drainExec (pushAll newTps [⟨0, 0⟩]) 1).2.stats.max_qsize) := by
  decide

/-- C5 (amended): after K ≥ 1 pushes onto a fresh processor with no
interleaved execution, once all those tasks have completed via execute-one
the `max_qsize` high-water mark is at least K - 1 (the depth is sampled at
the instant each task finishes, i.e. after that task was popped, so the
largest depth observed is K - 1). -/
theorem burst_highwater (ts : List tps_task) (h : ts ≠ []) :
    ((ts.length : Int) - 1)
      ≤ (drainExec (pushAll newTps ts) ts.length).2.stats.max_qsize := by
  obtain ⟨t, rest, rfl⟩ := List.exists_cons_of_ne_nil h
  have hstate := pushAll_spec (t :: rest) newTps
  have hs : (pushAll newTps (t :: rest)).shutting_down = false := by
    simp only [hstate]
    rfl
  have hq : (pushAll newTps (t :: rest)).tps_queue = t :: rest := by
    simp only [hstate]
    rfl
  have hsize : (pushAll newTps (t :: rest)).tps_queue_size
      = ((t :: rest).length : Int) := by
    simp only [hstate]
    simp [newTps]
  have hmax0 : (pushAll newTps (t :: rest)).stats.max_qsize = 0 := by
    simp only [hstate]
    rfl
  have hstep := execute_cons (pushAll newTps (t :: rest)) t rest hs hq
  simp only [List.length_cons, drainExec, hstep]
  refine le_trans ?_ (drain_max_mono rest.length _)
  simp [hsize, hmax0]
  split <;> omega

/-- C5 witness: K = 2 pushes onto a fresh processor followed by a full
drain observe a high-water mark of at least K - 1 = 1. -/
theorem burst_highwater_witness :
    ((([⟨0, 0⟩, ⟨1, 0⟩] : List tps_task).length : Int) - 1)
      ≤ (drainExec (pushAll newTps [⟨0, 0⟩, ⟨1, 0⟩])
          ([⟨0, 0⟩, ⟨1, 0⟩] : List tps_task).length).2.stats.max_qsize :=
  burst_highwater [⟨0, 0⟩, ⟨1, 0⟩] (by decide)

theorem applyOp_shutting_down (tps : ast_taskprocessor) (op : TpsOp) :
    (applyOp tps op).shutting_down = tps.shutting_down := by
  cases op with
  | push t =>
    rw [applyOp_push]
    rfl
  | execute => exact (execute_counts tps).2.2

theorem applyOps_shutting_down (ops : List TpsOp) (tps : ast_taskprocessor) :
    (applyOps tps ops).shutting_down = tps.shutting_down := by
  induction ops generalizing tps with
  | nil => rfl
  | cons op ops ih => rw [applyOps, ih, applyOp_shutting_down]

/-- C6: `shutting_down`, once true, stays true across any sequence of push
and execute-one operations (no queue operation ever writes it), and on a
shutting-down processor the pop refuses and execute-one returns 0 with the
processor state unchanged and no listener call or callback run. -/
theorem shutting_down_terminal (tps : ast_taskprocessor) (ops : List TpsOp)
    (h : tps.shutting_down = true) :
    (applyOps tps ops).shutting_down = true
    ∧ tps_taskprocessor_pop tps = (none, tps)
    ∧ ast_taskprocessor_execute tps = (0, tps, []) := by
  have hpop : tps_taskprocessor_pop tps = (none, tps) := by
    simp [tps_taskprocessor_pop, h]
  exact ⟨by rw [applyOps_shutting_down, h], hpop, execute_empty tps hpop⟩

/-- C6 witness: a concrete shutting-down processor with a nonempty queue,
run through a push and an execute. -/
theorem shutting_down_terminal_witness :
    (applyOps
        { tps_queue := [⟨0, 0⟩], tps_queue_size := 1
          stats := { max_qsize := 0, tasks_processed_count := 0 }
          shutting_down := true }
        [TpsOp.push ⟨1, 0⟩, TpsOp.execute]).shutting_down = true
    ∧ tps_taskprocessor_pop
        { tps_queue := [⟨0, 0⟩], tps_queue_size := 1
          stats := { max_qsize := 0, tasks_processed_count := 0 }
          shutting_down := true }
      = (none,
         { tps_queue := [⟨0, 0⟩], tps_queue_size := 1
           stats := { max_qsize := 0, tasks_processed_count := 0 }
           shutting_down := true })
    ∧ ast_taskprocessor_execute
        { tps_queue := [⟨0, 0⟩], tps_queue_size := 1
          stats := { max_qsize := 0, tasks_processed_count := 0 }
          shutting_down := true }
      = (0,
         { tps_queue := [⟨0, 0⟩], tps_queue_size := 1
           stats := { max_qsize := 0, tasks_processed_count := 0 }
           shutting_down := true }, []) :=
  shutting_down_terminal _ [TpsOp.push ⟨1, 0⟩, TpsOp.execute] (by decide)

/-- C7: push fails with a -1 return when the processor handle is NULL, when
the task callback is NULL, or when the task envelope allocation fails; in
every failure case the processor state is returned unchanged and no
listener callback is invoked. -/
theorem push_failure_no_effect (tps? : Option ast_taskprocessor)
    (task_exe? : Option tps_task) (allocOk : Bool)
    (h : tps? = none ∨ task_exe? = none ∨ allocOk = false) :
    ast_taskprocessor_push tps? task_exe? allocOk = (-1, tps?, []) := by
  rcases h with h | h | h
  · subst h
    rfl
  · subst h
    cases tps? <;> rfl
  · subst h
    cases tps? with
    | none => rfl
    | some tps => cases task_exe? <;> rfl

/-- C7 witness: a NULL processor handle at a concrete task. -/
theorem push_failure_no_effect_witness :
    ast_taskprocessor_push none (some ⟨0, 0⟩) true = (-1, none, []) :=
  push_failure_no_effect none (some ⟨0, 0⟩) true (Or.inl rfl)

/-- C10: the status code a task callback returns has no effect: executing a
processor whose head task differs only in the callback's status code gives
the identical result (same return, same state, same events), and every
execution of a popped task bumps `_tasks_processed_count` by exactly one
and raises `max_qsize` to the post-pop depth exactly when that depth
exceeds it. -/
theorem callback_status_ignored (tps : ast_taskprocessor) (i : Nat)
    (r1 r2 : Int) (rest : List tps_task) (hs : tps.shutting_down = false)
    (hq : tps.tps_queue = ⟨i, r1⟩ :: rest) :
    ast_taskprocessor_execute { tps with tps_queue := ⟨i, r2⟩ :: rest }
      = ast_taskprocessor_execute tps
    ∧ (ast_taskprocessor_execute tps).2.1.stats.tasks_processed_count
        = tps.stats.tasks_processed_count + 1
    ∧ (ast_taskprocessor_execute tps).2.1.stats.max_qsize
        = (if tps.tps_queue_size - 1 > tps.stats.max_qsize
           then tps.tps_queue_size - 1 else tps.stats.max_qsize) := by
  have h1 := execute_cons tps ⟨i, r1⟩ rest hs hq
  have h2 := execute_cons { tps with tps_queue := ⟨i, r2⟩ :: rest } ⟨i, r2⟩ rest
    (by simpa using hs) rfl
  rw [h1, h2]
  simp

/-- C10 witness: two copies of a one-task processor whose head callbacks
return 7 and 9 respectively. -/
theorem callback_status_ignored_witness :
    ast_taskprocessor_execute
        { ({ tps_queue := [⟨5, 7⟩], tps_queue_size := 1
             stats := { max_qsize := 0, tasks_processed_count := 0 }
             shutting_down := false } : ast_taskprocessor) with
            tps_queue := [⟨5, 9⟩] }
      = ast_taskprocessor_execute
        { tps_queue := [⟨5, 7⟩], tps_queue_size := 1
          stats := { max_qsize := 0, tasks_processed_count := 0 }
          shutting_down := false }
    ∧ (ast_taskprocessor_execute
        { tps_queue := [⟨5, 7⟩], tps_queue_size := 1
          stats := { max_qsize := 0, tasks_processed_count := 0 }
          shutting_down := false }).2.1.stats.tasks_processed_count
        = ({ max_qsize := 0, tasks_processed_count := 0 }
            : tps_taskprocessor_stats).tasks_processed_count + 1
    ∧ (ast_taskprocessor_execute
        { tps_queue := [⟨5, 7⟩], tps_queue_size := 1
          stats := { max_qsize := 0, tasks_processed_count := 0 }
          shutting_down := false }).2.1.stats.max_qsize
        = (if (1 : Int) - 1 > 0 then (1 : Int) - 1 else 0) :=
  callback_status_ignored
    { tps_queue := [⟨5, 7⟩], tps_queue_size := 1
      stats := { max_qsize := 0, tasks_processed_count := 0 }
      shutting_down := false }
    5 7 9 [] (by decide) (by decide)

/-- Lifecycle view of one registered taskprocessor, for
`ast_taskprocessor_unreference` (taskprocessor.c:582-604): its astobj2
reference count, whether it is linked in the `tps_singletons` container,
and whether its listener is still attached and live. -/
structure RefProcessor where
  ref_count : Nat
  linked : Bool
  listener_live : Bool
deriving Repr, DecidableEq

/-- Finalization actions of `ast_taskprocessor_unreference`, in program
order: `ao2_unlink(tps_singletons, tps)`, then `listener_shutdown(listener)`
(which calls `callbacks->shutdown` and drops the listener's back-reference
to the processor, taskprocessor.c:473-478), then `ao2_ref(listener, -1)`. -/
inductive RefEvent where
  | unlinked
  | listenerShutdown
  | listenerReleased
deriving Repr, DecidableEq

/-- Modelled from the spec: the astobj2 reference-count primitive
`ao2_ref(obj, -1)` lives outside src/.  Per the spec's reference-counted
lifecycle and the comment at taskprocessor.c:593-597, whose enumeration of
"3 references" includes "the reference we just got rid of", it decrements
the count and returns the value the count held before the decrement. -/
def ao2_ref_dec (count : Nat) : Nat × Nat := (count, count - 1)

/-- Embeds `ast_taskprocessor_unreference` (taskprocessor.c:582-604).
Returns the C return value (NULL on every path, modelled `none`), the
processor state afterwards, and the finalization actions taken: nothing
when the pre-decrement count exceeds 3, otherwise unlink, synchronous
listener shutdown, and listener release. -/
def ast_taskprocessor_unreference (tps? : Option RefProcessor) :
    Option RefProcessor × Option RefProcessor × List RefEvent :=
  match tps? with
  | none => (none, none, [])
  | some tps =>
    let r := ao2_ref_dec tps.ref_count
    if r.1 > 3 then (none, some { tps with ref_count := r.2 }, [])
    else
      (none,
       some { ref_count := r.2, linked := false, listener_live := false },
       [RefEvent.unlinked, RefEvent.listenerShutdown, RefEvent.listenerReleased])

/-- C8: unreference returns NULL for every input, including a NULL handle,
and for a live registered processor (count ≥ 3: the caller's reference plus
the registry's hold plus the listener's back-hold) it finalizes — unlinks
from the registry, synchronously shuts down and releases the listener —
exactly when the decrement brings the count to the reserved baseline 2
(registry hold + listener back-hold, no external caller left). -/
theorem unreference_baseline (tps? : Option RefProcessor)
    (tps : RefProcessor) (h : 3 ≤ tps.ref_count) :
    (ast_taskprocessor_unreference tps?).1 = none
    ∧ ((ast_taskprocessor_unreference (some tps)).2.2
          = [RefEvent.unlinked, RefEvent.listenerShutdown, RefEvent.listenerReleased]
        ↔ tps.ref_count - 1 = 2) := by
  constructor
  · cases tps? with
    | none => rfl
    | some u =>
      by_cases h3 : (ao2_ref_dec u.ref_count).1 > 3 <;>
        simp [ast_taskprocessor_unreference, h3]
  · unfold ast_taskprocessor_unreference ao2_ref_dec
    by_cases h3 : tps.ref_count > 3 <;> simp [h3] <;> omega

/-- C8 witness: a processor at exactly the caller + registry + listener
count of 3 finalizes when unreferenced. -/
theorem unreference_baseline_witness :
    (ast_taskprocessor_unreference
        (some { ref_count := 3, linked := true, listener_live := true })).1 = none
    ∧ ((ast_taskprocessor_unreference
          (some { ref_count := 3, linked := true, listener_live := true })).2.2
          = [RefEvent.unlinked, RefEvent.listenerShutdown, RefEvent.listenerReleased]
        ↔ ({ ref_count := 3, linked := true, listener_live := true }
            : RefProcessor).ref_count - 1 = 2) :=
  unreference_baseline
    (some { ref_count := 3, linked := true, listener_live := true })
    { ref_count := 3, linked := true, listener_live := true } (by decide)

/-- The process-wide registry `tps_singletons` (taskprocessor.c:84),
modelled as the list of registered processor names. -/
structure TpsRegistry where
  names : List String
deriving Repr, DecidableEq

/-- ASCII lower-casing of one character, as `tolower` does inside
`strcasecmp`. -/
def lowerChar (c : Char) : Char :=
  if 'A' ≤ c ∧ c ≤ 'Z' then Char.ofNat (c.toNat + 32) else c

/-- Case-insensitive name equality, `strcasecmp(a, b) == 0`, modelled as
equality of the ASCII-lower-cased character lists. -/
def strcaseEq (a b : String) : Bool :=
  a.data.map lowerChar == b.data.map lowerChar

/-- Embeds the registry lookup `ao2_find(tps_singletons, name, OBJ_KEY)`
under the compare callback `tps_cmp_cb` (taskprocessor.c:401-407), which
matches on `strcasecmp` name equality. -/
def ao2_find_name (reg : TpsRegistry) (name : String) : Option String :=
  reg.names.find? (fun n => strcaseEq n name)

/-- Modelled from the spec: the `ast_tps_options` enum is declared in
taskprocessor.h, which is not under src/; per the spec the mode is either
createIfMissing (C `TPS_REF_DEFAULT`) or onlyIfExists (C
`TPS_REF_IF_EXISTS`, tested in src with `create & TPS_REF_IF_EXISTS`). -/
inductive ast_tps_options where
  | TPS_REF_DEFAULT
  | TPS_REF_IF_EXISTS
deriving Repr, DecidableEq

/-- Outcome of `ast_taskprocessor_get`: the returned reference (by name),
the registry afterwards, and how many listener and processor objects were
allocated on the way. -/
structure GetResult where
  found : Option String
  reg : TpsRegistry
  listener_allocs : Nat
  processor_allocs : Nat
deriving Repr, DecidableEq

/-- Embeds `ast_taskprocessor_get` (taskprocessor.c:501-535): an empty name
fails; a registry hit returns the existing processor; a miss under
`TPS_REF_IF_EXISTS` returns NULL before anything is allocated; otherwise a
default listener is allocated and `ast_taskprocessor_create_with_listener`
builds, registers and starts the processor (modelled on its success
path). -/
def ast_taskprocessor_get (reg : TpsRegistry) (name : String)
    (create : ast_tps_options) : GetResult :=
  if name = "" then ⟨none, reg, 0, 0⟩
  else
    match ao2_find_name reg name with
    | some p => ⟨some p, reg, 0, 0⟩
    | none =>
      match create with
      | ast_tps_options.TPS_REF_IF_EXISTS => ⟨none, reg, 0, 0⟩
      | ast_tps_options.TPS_REF_DEFAULT =>
        ⟨some name, ⟨name :: reg.names⟩, 1, 1⟩

/-- C9: get-or-create in "only if exists" mode on a name with no registry
entry returns absence and has no side effects: the registry is unchanged
and no listener or processor object is allocated. -/
theorem get_if_exists_miss (reg : TpsRegistry) (name : String)
    (h : ao2_find_name reg name = none) :
    ast_taskprocessor_get reg name ast_tps_options.TPS_REF_IF_EXISTS
      = ⟨none, reg, 0, 0⟩ := by
  unfold ast_taskprocessor_get
  split
  · rfl
  · rw [h]

/-- C9 witness: looking up the absent name "ghost" in a registry holding
only "alpha". -/
theorem get_if_exists_miss_witness :
    ast_taskprocessor_get ⟨["alpha"]⟩ "ghost" ast_tps_options.TPS_REF_IF_EXISTS
      = ⟨none, ⟨["alpha"]⟩, 0, 0⟩ :=
  get_if_exists_miss ⟨["alpha"]⟩ "ghost" (by decide)
